import Mathlib

/-!
Formal model of the video assembly service
(`src/cloud_run/video_assembler/main.py`).

The handler `assemble_video` downloads N scene images and N narration
clips from a blob store, writes an edit list (ffmpeg concat file) and an
audio list, concatenates the audio with a stream copy, encodes the final
video with fixed parameters and the shortest-stream clamp, uploads the
result and reports its size and the elapsed time.  The model below is a
shallow embedding of that handler: the external world (blob store, the
two subprocess invocations, the clock, storage metadata) is an explicit
environment, and the handler body is a pure function from the
environment and the request payload to an HTTP response together with a
trace of its observable effects.
-/

namespace VideoAssembler

/-- Left-pad a digit string with zeros to width `w`
(the digit part of Python `format(n, "03d")`). -/
def zeroPad (w : Nat) (s : String) : String :=
  String.mk (List.replicate (w - s.length) '0') ++ s

/-- Python `f"{i:03d}"`: total field width 3, the sign included, so
`-1` renders as `-01`, `0` as `000`, `47` as `047`, `1234` as `1234`. -/
def fmt03 (i : Int) : String :=
  if i < 0 then "-" ++ zeroPad 2 (Nat.repr i.natAbs)
  else zeroPad 3 (Nat.repr i.natAbs)

/-- Python `s.split(c)` for a one-character separator. -/
def pySplit (c : Char) (s : String) : List String :=
  (s.data.splitOn c).map String.mk

/-- One line of an ffmpeg concat-format list file: either a
`file ...` line naming a path or a `duration ...` line. -/
inductive ConcatLine where
  | file (path : String)
  | dur (seconds : Nat)

/-- An edit-list entry: an image path with an optional explicit
display duration. -/
structure EditEntry where
  path : String
  duration : Option Nat

/-- A local file created during a job: either inside the job-scoped
scratch directory (recorded by its path relative to it) or outside. -/
inductive LocalPath where
  | scratch (rel : String)
  | outside (abs : String)

/-- Whether a local file lives in the job-scoped scratch directory. -/
def isScratch : LocalPath → Bool
  | .scratch _ => true
  | .outside _ => false

/-- The request payload of `POST /assemble` (source lines 22-36). -/
structure Job where
  episode_number : Nat
  images_bucket : String
  images_path : String
  audio_bucket : String
  audio_path : String
  output_bucket : String
  output_filename : String
  total_scenes : Nat
  duration_per_scene : Nat
  fps : Nat
  resolution : String

/-- The external world one run interacts with: blob-store existence,
the exit codes and stderr of the two subprocess invocations, the
duration of each narration clip, upload success, the size the storage
system reports for the uploaded blob, the size a local stat would
report, and the wall clock at start and at response time. -/
structure Env where
  blobExists : String → String → Bool
  audioExit : Nat
  audioStderr : String
  encodeExit : Nat
  encodeStderr : String
  clipDuration : Nat → ℚ
  uploadOk : Bool
  storedSize : Nat
  localSize : Nat
  t0 : ℚ
  t1 : ℚ

/-- Python exceptions that can escape the handler body. -/
inductive PyExn where
  | notFound (bucket : String) (blobName : String)
  | calledProcessError (cmd : List String) (exitCode : Nat) (stderr : String)
  | valueError
  | publishFailed (bucket : String) (blobName : String)

/-- What the caller of `POST /assemble` receives. -/
inductive HttpResponse where
  | ok (status : String) (video_url : String) (video_size_mb : ℚ)
      (processing_time_seconds : ℚ)
  | err (statusCode : Nat) (error : String) (details : Option String)
  | unhandled (e : PyExn)

/-- Observable effects of one run. -/
structure Trace where
  blobReads : List (String × String)
  blobWrites : List (String × String)
  filesCreated : List LocalPath
  encodeAttempted : Bool
  encodeCmdRun : Option (List String)

/-- Blob name of scene image `i` (source line 54). -/
def imgBlobName (job : Job) (i : Int) : String :=
  job.images_path ++ "scene_" ++ fmt03 i ++ ".png"

/-- Blob name of narration clip `i` (source line 66). -/
def audBlobName (job : Job) (i : Int) : String :=
  job.audio_path ++ "narration_" ++ fmt03 i ++ ".mp3"

/-- Scratch-relative local path of image `i` (source line 56). -/
def imgLocalRel (i : Int) : String :=
  "images/scene_" ++ fmt03 i ++ ".png"

/-- Scratch-relative local path of narration clip `i` (source line 68). -/
def audLocalRel (i : Int) : String :=
  "audio/narration_" ++ fmt03 i ++ ".mp3"

/-- Absolute local path of image `i` under the scratch directory. -/
def imgLocalPath (tmpdir : String) (i : Int) : String :=
  tmpdir ++ "/" ++ imgLocalRel i

/-- Absolute local path of narration clip `i` under the scratch directory. -/
def audLocalPath (tmpdir : String) (i : Int) : String :=
  tmpdir ++ "/" ++ audLocalRel i

/-- The ffmpeg concat file for the images (source lines 74-80): for each
`i` in `0..N-1` a `file` line for image `i` and a `duration` line, then
one trailing `file` line for index `N-1` (Python `total_scenes - 1`,
which is `-1` when `N = 0`) with no duration line. -/
def concatLines (tmpdir : String) (job : Job) : List ConcatLine :=
  ((List.range job.total_scenes).flatMap fun i : Nat =>
    [ConcatLine.file (imgLocalPath tmpdir i), ConcatLine.dur job.duration_per_scene])
  ++ [ConcatLine.file (imgLocalPath tmpdir ((job.total_scenes : Int) - 1))]

/-- The audio list file (source lines 84-87): one `file` line per
narration clip, in index order. -/
def audioListLines (tmpdir : String) (job : Job) : List ConcatLine :=
  (List.range job.total_scenes).map fun i : Nat =>
    ConcatLine.file (audLocalPath tmpdir i)

/-- The audio concatenation command (source lines 90-95). -/
def audioConcatCmd (tmpdir : String) : List String :=
  ["ffmpeg", "-f", "concat", "-safe", "0",
   "-i", tmpdir ++ "/audio_list.txt",
   "-c", "copy",
   tmpdir ++ "/full_audio.mp3"]

/-- The final encoding command (source lines 105-122). -/
def encodeCmd (tmpdir : String) (job : Job) (w h : String) : List String :=
  ["ffmpeg",
   "-f", "concat",
   "-safe", "0",
   "-i", tmpdir ++ "/concat.txt",
   "-i", tmpdir ++ "/full_audio.mp3",
   "-vf", "scale=" ++ w ++ ":" ++ h ++ ",fps=" ++ Nat.repr job.fps,
   "-c:v", "libx264",
   "-preset", "medium",
   "-crf", "21",
   "-pix_fmt", "yuv420p",
   "-c:a", "aac",
   "-b:a", "192k",
   "-ar", "48000",
   "-movflags", "+faststart",
   "-shortest",
   tmpdir ++ "/" ++ job.output_filename]

/-- The download loop over a list of indices: each present index is
downloaded and the loop moves on; the first missing index raises, so the
loop stops there.  Returns the indices whose download was attempted (the
failing one included) and the first missing index, if any. -/
def fetchAttempts (l : List Nat) (p : Nat → Bool) : List Nat × Option Nat :=
  match l with
  | [] => ([], none)
  | i :: rest =>
    if p i then
      let r := fetchAttempts rest p
      (i :: r.1, r.2)
    else
      ([i], some i)

/-- Python `round(x, 2)` and `round(x, 1)`, modelled on exact rationals
as round-half-up at scale `s` (`s = 100` for two decimals, `10` for
one). -/
def roundAt (s : ℚ) (q : ℚ) : ℚ :=
  ((⌊q * s + 1 / 2⌋ : ℤ) : ℚ) / s

/-- Read an ffmpeg concat file back as an edit list: a `file` line
followed by a `duration` line is one entry with that duration; a `file`
line not followed by a `duration` line is an entry with no explicit
duration. -/
def toEntries : List ConcatLine → List EditEntry
  | [] => []
  | [ConcatLine.file p] => [⟨p, none⟩]
  | ConcatLine.file p :: ConcatLine.dur d :: rest => ⟨p, some d⟩ :: toEntries rest
  | ConcatLine.file p :: ConcatLine.file q :: rest =>
      ⟨p, none⟩ :: toEntries (ConcatLine.file q :: rest)
  | ConcatLine.dur _ :: rest => toEntries rest

/-- The body of the `with tempfile.TemporaryDirectory()` block of
`assemble_video` (source lines 46-152), stage by stage in source order:
image downloads, audio downloads, concat file, audio list, audio
stream-copy concatenation, resolution split, encode, upload, response.
A stage that raises or returns early skips everything after it. -/
def assembleBody (env : Env) (tmpdir : String) (job : Job) :
    HttpResponse × Trace :=
  let N := job.total_scenes
  let imgFetch := fetchAttempts (List.range N)
    (fun i => env.blobExists job.images_bucket (imgBlobName job i))
  match imgFetch.2 with
  | some k =>
    (HttpResponse.unhandled (PyExn.notFound job.images_bucket (imgBlobName job k)),
     { blobReads := imgFetch.1.map fun i : Nat => (job.images_bucket, imgBlobName job i),
       blobWrites := [],
       filesCreated := imgFetch.1.dropLast.map fun i : Nat => LocalPath.scratch (imgLocalRel i),
       encodeAttempted := false, encodeCmdRun := none })
  | none =>
    let imgReads := (List.range N).map fun i : Nat => (job.images_bucket, imgBlobName job i)
    let imgFiles := (List.range N).map fun i : Nat => LocalPath.scratch (imgLocalRel i)
    let audFetch := fetchAttempts (List.range N)
      (fun i => env.blobExists job.audio_bucket (audBlobName job i))
    match audFetch.2 with
    | some k =>
      (HttpResponse.unhandled (PyExn.notFound job.audio_bucket (audBlobName job k)),
       { blobReads := imgReads ++ audFetch.1.map fun i : Nat => (job.audio_bucket, audBlobName job i),
         blobWrites := [],
         filesCreated := imgFiles ++ audFetch.1.dropLast.map fun i : Nat =>
           LocalPath.scratch (audLocalRel i),
         encodeAttempted := false, encodeCmdRun := none })
    | none =>
      let reads := imgReads ++ ((List.range N).map fun i : Nat => (job.audio_bucket, audBlobName job i))
      let files1 := imgFiles
        ++ ((List.range N).map fun i : Nat => LocalPath.scratch (audLocalRel i))
        ++ [LocalPath.scratch "concat.txt", LocalPath.scratch "audio_list.txt"]
      if env.audioExit ≠ 0 then
        (HttpResponse.unhandled
           (PyExn.calledProcessError (audioConcatCmd tmpdir) env.audioExit env.audioStderr),
         { blobReads := reads, blobWrites := [], filesCreated := files1,
           encodeAttempted := false, encodeCmdRun := none })
      else
        let files2 := files1 ++ [LocalPath.scratch "full_audio.mp3"]
        match pySplit 'x' job.resolution with
        | [w, h] =>
          if env.encodeExit ≠ 0 then
            (HttpResponse.err 500 "Video assembly failed" (some env.encodeStderr),
             { blobReads := reads, blobWrites := [], filesCreated := files2,
               encodeAttempted := true, encodeCmdRun := some (encodeCmd tmpdir job w h) })
          else
            let files3 := files2 ++ [LocalPath.scratch job.output_filename]
            if env.uploadOk then
              (HttpResponse.ok "success"
                 ("gs://" ++ job.output_bucket ++ "/final/" ++ job.output_filename)
                 (roundAt 100 ((env.storedSize : ℚ) / (1024 * 1024)))
                 (roundAt 10 (env.t1 - env.t0)),
               { blobReads := reads,
                 blobWrites := [(job.output_bucket, "final/" ++ job.output_filename)],
                 filesCreated := files3,
                 encodeAttempted := true, encodeCmdRun := some (encodeCmd tmpdir job w h) })
            else
              (HttpResponse.unhandled
                 (PyExn.publishFailed job.output_bucket ("final/" ++ job.output_filename)),
               { blobReads := reads, blobWrites := [], filesCreated := files3,
                 encodeAttempted := true, encodeCmdRun := some (encodeCmd tmpdir job w h) })
        | _ =>
          (HttpResponse.unhandled PyExn.valueError,
           { blobReads := reads, blobWrites := [], filesCreated := files2,
             encodeAttempted := false, encodeCmdRun := none })

/-- The outcome of one full run: the response, the effect trace, and the
local files that survive the `TemporaryDirectory` cleanup, which removes
the scratch directory recursively on every exit path of the body. -/
structure RunResult where
  response : HttpResponse
  trace : Trace
  leftoverFiles : List LocalPath

/-- One full run of the handler: the body wrapped in the scratch
directory context manager (source line 43), whose exit deletes every
file under the scratch directory whether the body returned or raised. -/
def assemble (env : Env) (tmpdir : String) (job : Job) : RunResult :=
  let r := assembleBody env tmpdir job
  { response := r.1
    trace := r.2
    leftoverFiles := r.2.filesCreated.filter fun p => !(isScratch p) }

/-- Seconds of explicit display duration listed in a concat file. -/
def timelineSeconds (ls : List ConcatLine) : ℚ :=
  (ls.map fun l => match l with
    | ConcatLine.dur d => (d : ℚ)
    | ConcatLine.file _ => 0).sum

/-- Modelled from the spec: lossless stream-copy concatenation produces
a single track whose duration is the sum of the N input durations
(spec, Audio Concatenator contract). -/
def totalAudioDuration (env : Env) (n : Nat) : ℚ :=
  ((List.range n).map env.clipDuration).sum

/-- Modelled from the spec: the external multiplexer, when invoked with
the shortest-stream flag, clamps the output to the shorter of the visual
timeline and the audio track, silently truncating the longer stream
rather than raising an error; without the flag each stream keeps the
visual timeline length. -/
def muxedVideoDuration (videoTimeline audioDur : ℚ) (shortestFlag : Bool) : ℚ :=
  if shortestFlag then min videoTimeline audioDur else videoTimeline

/-- The two kinds of per-scene asset the fetch stage downloads. -/
inductive AssetKind where
  | image
  | audio

/-- The bucket the fetch stage reads a given kind of asset from. -/
def assetBucket (job : Job) : AssetKind → String
  | .image => job.images_bucket
  | .audio => job.audio_bucket

/-- The blob name of asset `i` of a given kind. -/
def assetBlobName (job : Job) : AssetKind → Int → String
  | .image => imgBlobName job
  | .audio => audBlobName job

/-- The asset of the given kind at index `k` is the first blob the fetch
stage finds missing: every blob the loop reaches before it exists, and
it does not. -/
@[reducible] def missingAt (env : Env) (job : Job) (kind : AssetKind) (k : Nat) : Prop :=
  match kind with
  | .image =>
      (∀ j, j < k → env.blobExists job.images_bucket (imgBlobName job j) = true) ∧
      env.blobExists job.images_bucket (imgBlobName job k) = false
  | .audio =>
      (∀ j, j < job.total_scenes →
        env.blobExists job.images_bucket (imgBlobName job j) = true) ∧
      (∀ j, j < k → env.blobExists job.audio_bucket (audBlobName job j) = true) ∧
      env.blobExists job.audio_bucket (audBlobName job k) = false

/-- Command-line arguments that would make ffmpeg re-encode, filter,
resample or re-rate the audio rather than stream-copy it. -/
def isReencodeArg (a : String) : Bool :=
  a == "-c:a" || a == "-acodec" || a == "-af" || a == "-filter:a" ||
  a == "-ar" || a == "-b:a" || a == "-sample_fmt"

/-- A concrete two-scene job used to evaluate the theorems. -/
def jobW : Job :=
  { episode_number := 1
    images_bucket := "ib"
    images_path := "p/"
    audio_bucket := "ab"
    audio_path := "q/"
    output_bucket := "ob"
    output_filename := "out.mp4"
    total_scenes := 2
    duration_per_scene := 5
    fps := 24
    resolution := "1920x1080" }

/-- The same job with zero scenes. -/
def job0 : Job :=
  { jobW with total_scenes := 0 }

/-- A concrete environment in which every blob exists and every external
step succeeds. -/
def envW : Env :=
  { blobExists := fun _ _ => true
    audioExit := 0
    audioStderr := ""
    encodeExit := 0
    encodeStderr := ""
    clipDuration := fun _ => 4
    uploadOk := true
    storedSize := 1048576
    localSize := 7
    t0 := 0
    t1 := 10 }

/-- An environment in which the audio concatenation subprocess fails. -/
def envAudioFail : Env :=
  { envW with audioExit := 1, audioStderr := "bad clip" }

/-- An environment in which the encoding subprocess fails. -/
def envEncodeFail : Env :=
  { envW with encodeExit := 1, encodeStderr := "encoder blew up" }

/-- An environment in which exactly the blob named like scene image 1 of
`jobW` is absent. -/
def envMissingImage : Env :=
  { envW with blobExists := fun _ n => !(n == "p/scene_001.png") }

/-! ## Helper lemmas -/

theorem fetchAttempts_all (l : List Nat) (p : Nat → Bool)
    (h : ∀ i ∈ l, p i = true) : fetchAttempts l p = (l, none) := by
  induction l with
  | nil => rfl
  | cons a t ih =>
    simp only [fetchAttempts, h a (by simp), if_true]
    simp [ih fun i hi => h i (List.mem_cons_of_mem a hi)]

theorem fetchAttempts_firstFail (l₁ l₂ : List Nat) (k : Nat) (p : Nat → Bool)
    (h1 : ∀ i ∈ l₁, p i = true) (h2 : p k = false) :
    fetchAttempts (l₁ ++ k :: l₂) p = (l₁ ++ [k], some k) := by
  induction l₁ with
  | nil => simp [fetchAttempts, h2]
  | cons a t ih =>
    simp only [List.cons_append, fetchAttempts, h1 a (by simp), if_true]
    simp [ih fun i hi => h1 i (List.mem_cons_of_mem a hi)]

theorem range_split (k n : Nat) (h : k < n) :
    List.range n = List.range k ++ k :: (List.range (n - k - 1)).map (k + 1 + ·) := by
  conv_lhs => rw [show n = (k + 1) + (n - k - 1) by omega]
  rw [List.range_add, List.range_succ]
  simp

theorem toEntries_blocks (p : Nat → String) (D : Nat) (q : String) (l : List Nat) :
    toEntries ((l.flatMap fun i => [ConcatLine.file (p i), ConcatLine.dur D])
        ++ [ConcatLine.file q])
      = (l.map fun i => EditEntry.mk (p i) (some D)) ++ [EditEntry.mk q none] := by
  induction l with
  | nil => rfl
  | cons a t ih =>
    rw [show ((a :: t).flatMap fun i => [ConcatLine.file (p i), ConcatLine.dur D])
          ++ [ConcatLine.file q]
        = ConcatLine.file (p a) :: ConcatLine.dur D ::
          ((t.flatMap fun i => [ConcatLine.file (p i), ConcatLine.dur D])
            ++ [ConcatLine.file q]) from by simp]
    simp only [toEntries, List.map_cons, List.cons_append]
    rw [ih]

theorem timelineSeconds_append (l₁ l₂ : List ConcatLine) :
    timelineSeconds (l₁ ++ l₂) = timelineSeconds l₁ + timelineSeconds l₂ := by
  simp [timelineSeconds]

theorem timelineSeconds_blocks (p : Nat → String) (D : Nat) (l : List Nat) :
    timelineSeconds (l.flatMap fun i => [ConcatLine.file (p i), ConcatLine.dur D])
      = l.length * D := by
  induction l with
  | nil => simp [timelineSeconds]
  | cons a t ih =>
    rw [show ((a :: t).flatMap fun i => [ConcatLine.file (p i), ConcatLine.dur D])
        = ConcatLine.file (p a) :: ConcatLine.dur D ::
          (t.flatMap fun i => [ConcatLine.file (p i), ConcatLine.dur D]) from by simp]
    simp only [timelineSeconds, List.map_cons, List.sum_cons] at ih ⊢
    rw [ih]
    push_cast [List.length_cons]
    ring

theorem filter_notScratch_of_all (l : List LocalPath)
    (h : ∀ a ∈ l, isScratch a = true) :
    l.filter (fun q => !(isScratch q)) = [] := by
  induction l with
  | nil => rfl
  | cons a t ih =>
    rw [List.filter_cons, h a (by simp)]
    simp only [Bool.not_true, Bool.false_eq_true, if_false]
    exact ih fun b hb => h b (List.mem_cons_of_mem a hb)

theorem outside_not_mem_dropLast_map_scratch {α : Type} (f : α → String) (s : String)
    (l : List α) :
    (LocalPath.outside s ∈ (l.map fun a => LocalPath.scratch (f a)).dropLast) = False := by
  simp only [eq_iff_iff, iff_false]
  intro h
  have h2 := List.dropLast_subset _ h
  simp at h2

theorem append_ne_of_length_lt (p s t : String) (h : t.length < s.length) :
    p ++ s ≠ t := by
  intro he
  have hlen := congrArg String.length he
  rw [String.length_append] at hlen
  omega

theorem isReencodeArg_longSuffix (p s : String) (h : 12 ≤ s.length) :
    isReencodeArg (p ++ s) = false := by
  simp only [isReencodeArg, Bool.or_eq_false_iff, beq_eq_false_iff_ne, ne_eq]
  refine ⟨⟨⟨⟨⟨⟨?_, ?_⟩, ?_⟩, ?_⟩, ?_⟩, ?_⟩, ?_⟩ <;>
    exact append_ne_of_length_lt _ _ _ (lt_of_lt_of_le (by decide) h)

theorem audioConcatCmd_noReencode (tmpdir : String) :
    (audioConcatCmd tmpdir).any isReencodeArg = false := by
  rw [List.any_eq_false]
  intro a ha
  simp only [audioConcatCmd, List.mem_cons, List.not_mem_nil, or_false] at ha
  rcases ha with rfl | rfl | rfl | rfl | rfl | rfl | rfl | rfl | rfl | rfl
  · decide
  · decide
  · decide
  · decide
  · decide
  · decide
  · simp [isReencodeArg_longSuffix tmpdir "/audio_list.txt" (by decide)]
  · decide
  · decide
  · simp [isReencodeArg_longSuffix tmpdir "/full_audio.mp3" (by decide)]

theorem audioConcatCmd_streamCopy (tmpdir : String) :
    ∃ pre suf, audioConcatCmd tmpdir = pre ++ ["-c", "copy"] ++ suf :=
  ⟨["ffmpeg", "-f", "concat", "-safe", "0", "-i", tmpdir ++ "/audio_list.txt"],
   [tmpdir ++ "/full_audio.mp3"], rfl⟩

/-! ## Claim theorems -/

/-- C1: for every job with at least one scene, the encode command the
handler issues carries the shortest-stream flag, the visual timeline it
encodes is exactly `N * D` seconds of explicit durations, and under the
modelled multiplexer semantics the output video-stream duration is the
minimum of `N * D` and the total audio duration — the longer stream is
silently truncated, not an error. -/
theorem c1_duration_clamped (tmpdir w h : String) (env : Env) (job : Job)
    (_hN : 1 ≤ job.total_scenes) :
    (encodeCmd tmpdir job w h).contains "-shortest" = true ∧
    timelineSeconds (concatLines tmpdir job)
      = (job.total_scenes : ℚ) * (job.duration_per_scene : ℚ) ∧
    muxedVideoDuration (timelineSeconds (concatLines tmpdir job))
        (totalAudioDuration env job.total_scenes)
        ((encodeCmd tmpdir job w h).contains "-shortest")
      = min ((job.total_scenes : ℚ) * (job.duration_per_scene : ℚ))
          (totalAudioDuration env job.total_scenes) := by
  have hc : (encodeCmd tmpdir job w h).contains "-shortest" = true := by
    have hm : "-shortest" ∈ encodeCmd tmpdir job w h := by simp [encodeCmd]
    simpa using hm
  have ht : timelineSeconds (concatLines tmpdir job)
      = (job.total_scenes : ℚ) * (job.duration_per_scene : ℚ) := by
    rw [concatLines, timelineSeconds_append, timelineSeconds_blocks]
    simp [timelineSeconds]
  exact ⟨hc, ht, by rw [hc, ht, muxedVideoDuration, if_pos rfl]⟩

/-- C1 witness: the two-scene job, evaluated. -/
theorem c1_duration_clamped_witness :
    (encodeCmd "/t" jobW "1920" "1080").contains "-shortest" = true ∧
    timelineSeconds (concatLines "/t" jobW)
      = (jobW.total_scenes : ℚ) * (jobW.duration_per_scene : ℚ) ∧
    muxedVideoDuration (timelineSeconds (concatLines "/t" jobW))
        (totalAudioDuration envW jobW.total_scenes)
        ((encodeCmd "/t" jobW "1920" "1080").contains "-shortest")
      = min ((jobW.total_scenes : ℚ) * (jobW.duration_per_scene : ℚ))
          (totalAudioDuration envW jobW.total_scenes) :=
  c1_duration_clamped "/t" "1920" "1080" envW jobW (by decide)

/-- C2: for every job with `N` scenes, the concat file the handler
writes reads back as exactly `N + 1` edit entries: entry `i` (for
`i < N`) names the local path of image `i` with explicit display
duration `D`, and the one trailing entry names the local path of image
`N - 1` with no explicit duration. -/
theorem c2_edit_list (tmpdir : String) (job : Job) :
    (toEntries (concatLines tmpdir job)).length = job.total_scenes + 1 ∧
    (∀ i, i < job.total_scenes →
      (toEntries (concatLines tmpdir job))[i]? =
        some (EditEntry.mk (imgLocalPath tmpdir i) (some job.duration_per_scene))) ∧
    (toEntries (concatLines tmpdir job)).getLast? =
      some (EditEntry.mk (imgLocalPath tmpdir ((job.total_scenes : Int) - 1)) none) := by
  have he : toEntries (concatLines tmpdir job)
      = ((List.range job.total_scenes).map fun i : Nat =>
          EditEntry.mk (imgLocalPath tmpdir (i : Int)) (some job.duration_per_scene))
        ++ [EditEntry.mk (imgLocalPath tmpdir ((job.total_scenes : Int) - 1)) none] := by
    rw [concatLines]
    exact toEntries_blocks (fun i : Nat => imgLocalPath tmpdir (i : Int)) _ _ _
  refine ⟨?_, ?_, ?_⟩
  · simp [he]
  · intro i hi
    rw [he, List.getElem?_append_left (by simpa using hi)]
    simp [List.getElem?_range hi]
  · rw [he, List.getLast?_concat]

/-- C2 witness: entry 1 of the two-scene job. -/
theorem c2_edit_list_witness :
    (toEntries (concatLines "/t" jobW))[1]? =
      some (EditEntry.mk (imgLocalPath "/t" ((1 : Nat) : Int))
        (some jobW.duration_per_scene)) :=
  (c2_edit_list "/t" jobW).2.1 1 (by decide)

/-- C7: on every exit path — success, an encode failure, or an
exception at any earlier stage — no local file created by the run
survives the removal of the job-scoped scratch directory. -/
theorem c7_scratch_cleanup (env : Env) (tmpdir : String) (job : Job) :
    (assemble env tmpdir job).leftoverFiles = [] := by
  unfold assemble assembleBody
  dsimp only
  repeat' split
  all_goals
    apply filter_notScratch_of_all
    intro a ha
    cases a with
    | scratch r => rfl
    | outside s =>
      exfalso
      simp [outside_not_mem_dropLast_map_scratch] at ha

/-- On the all-success path (every blob present, both subprocesses exit
zero, the resolution splits in two, the upload succeeds) the run
produces the success response, reads exactly the per-index blobs, and
writes exactly the final output blob. -/
theorem assemble_success_run (env : Env) (tmpdir : String) (job : Job) (w h : String)
    (hImg : ∀ j, j < job.total_scenes →
      env.blobExists job.images_bucket (imgBlobName job j) = true)
    (hAud : ∀ j, j < job.total_scenes →
      env.blobExists job.audio_bucket (audBlobName job j) = true)
    (hAC : env.audioExit = 0)
    (hres : pySplit 'x' job.resolution = [w, h])
    (hE : env.encodeExit = 0)
    (hU : env.uploadOk = true) :
    (assemble env tmpdir job).response
      = HttpResponse.ok "success"
          ("gs://" ++ job.output_bucket ++ "/final/" ++ job.output_filename)
          (roundAt 100 ((env.storedSize : ℚ) / (1024 * 1024)))
          (roundAt 10 (env.t1 - env.t0)) ∧
    (assemble env tmpdir job).trace.blobReads
      = ((List.range job.total_scenes).map fun i : Nat => (job.images_bucket, imgBlobName job i))
        ++ ((List.range job.total_scenes).map fun i : Nat => (job.audio_bucket, audBlobName job i)) ∧
    (assemble env tmpdir job).trace.blobWrites
      = [(job.output_bucket, "final/" ++ job.output_filename)] := by
  have hrImg : fetchAttempts (List.range job.total_scenes)
      (fun i => env.blobExists job.images_bucket (imgBlobName job i))
      = (List.range job.total_scenes, none) :=
    fetchAttempts_all _ _ fun i hi => hImg i (List.mem_range.mp hi)
  have hrAud : fetchAttempts (List.range job.total_scenes)
      (fun i => env.blobExists job.audio_bucket (audBlobName job i))
      = (List.range job.total_scenes, none) :=
    fetchAttempts_all _ _ fun i hi => hAud i (List.mem_range.mp hi)
  unfold assemble assembleBody
  dsimp only
  rw [hrImg, hrAud]
  dsimp only
  simp [hAC, hres, hE, hU]

/-- C3: when the first missing blob is the image (or narration clip) at
index `k`, the run fails with the storage NotFound exception naming the
bucket and the blob of kind and index `k`, the encode step is never
attempted, and no output blob is written — there is no partial-asset
fallback. -/
theorem c3_missing_asset (env : Env) (tmpdir : String) (job : Job)
    (kind : AssetKind) (k : Nat) (hk : k < job.total_scenes)
    (hm : missingAt env job kind k) :
    (assemble env tmpdir job).response
      = HttpResponse.unhandled
          (PyExn.notFound (assetBucket job kind) (assetBlobName job kind k)) ∧
    (assemble env tmpdir job).trace.encodeAttempted = false ∧
    (assemble env tmpdir job).trace.blobWrites = [] := by
  cases kind with
  | image =>
    obtain ⟨h1, h2⟩ := hm
    have hr : fetchAttempts (List.range job.total_scenes)
        (fun i => env.blobExists job.images_bucket (imgBlobName job i))
        = (List.range k ++ [k], some k) := by
      rw [range_split k job.total_scenes hk]
      exact fetchAttempts_firstFail _ _ _ _
        (fun i hi => h1 i (List.mem_range.mp hi)) h2
    unfold assemble assembleBody
    dsimp only
    rw [hr]
    dsimp only
    simp [assetBucket, assetBlobName]
  | audio =>
    obtain ⟨hall, h1, h2⟩ := hm
    have hrImg : fetchAttempts (List.range job.total_scenes)
        (fun i => env.blobExists job.images_bucket (imgBlobName job i))
        = (List.range job.total_scenes, none) :=
      fetchAttempts_all _ _ fun i hi => hall i (List.mem_range.mp hi)
    have hrAud : fetchAttempts (List.range job.total_scenes)
        (fun i => env.blobExists job.audio_bucket (audBlobName job i))
        = (List.range k ++ [k], some k) := by
      rw [range_split k job.total_scenes hk]
      exact fetchAttempts_firstFail _ _ _ _
        (fun i hi => h1 i (List.mem_range.mp hi)) h2
    unfold assemble assembleBody
    dsimp only
    rw [hrImg, hrAud]
    dsimp only
    simp [assetBucket, assetBlobName]

/-- C3 witness: image 1 of the two-scene job is absent. -/
theorem c3_missing_asset_witness :
    (assemble envMissingImage "/t" jobW).response
      = HttpResponse.unhandled
          (PyExn.notFound (assetBucket jobW AssetKind.image)
            (assetBlobName jobW AssetKind.image 1)) ∧
    (assemble envMissingImage "/t" jobW).trace.encodeAttempted = false ∧
    (assemble envMissingImage "/t" jobW).trace.blobWrites = [] :=
  c3_missing_asset envMissingImage "/t" jobW AssetKind.image 1 (by decide) (by decide)

/-- C4: when the encode subprocess exits non-zero, the caller receives
HTTP 500 with the encoder stderr in the details field and no output
blob is written. -/
theorem c4_encode_failure (env : Env) (tmpdir : String) (job : Job) (w h : String)
    (hImg : ∀ j, j < job.total_scenes →
      env.blobExists job.images_bucket (imgBlobName job j) = true)
    (hAud : ∀ j, j < job.total_scenes →
      env.blobExists job.audio_bucket (audBlobName job j) = true)
    (hAC : env.audioExit = 0)
    (hres : pySplit 'x' job.resolution = [w, h])
    (hE : env.encodeExit ≠ 0) :
    (assemble env tmpdir job).response
      = HttpResponse.err 500 "Video assembly failed" (some env.encodeStderr) ∧
    (assemble env tmpdir job).trace.blobWrites = [] := by
  have hrImg : fetchAttempts (List.range job.total_scenes)
      (fun i => env.blobExists job.images_bucket (imgBlobName job i))
      = (List.range job.total_scenes, none) :=
    fetchAttempts_all _ _ fun i hi => hImg i (List.mem_range.mp hi)
  have hrAud : fetchAttempts (List.range job.total_scenes)
      (fun i => env.blobExists job.audio_bucket (audBlobName job i))
      = (List.range job.total_scenes, none) :=
    fetchAttempts_all _ _ fun i hi => hAud i (List.mem_range.mp hi)
  unfold assemble assembleBody
  dsimp only
  rw [hrImg, hrAud]
  dsimp only
  simp [hAC, hres, hE]

/-- C4 witness: the two-scene job with a failing encoder. -/
theorem c4_encode_failure_witness :
    (assemble envEncodeFail "/t" jobW).response
      = HttpResponse.err 500 "Video assembly failed" (some envEncodeFail.encodeStderr) ∧
    (assemble envEncodeFail "/t" jobW).trace.blobWrites = [] :=
  c4_encode_failure envEncodeFail "/t" jobW "1920" "1080"
    (by decide) (by decide) (by decide) (by decide) (by decide)

/-- C5: when the audio concatenation subprocess exits non-zero, the run
fails with the CalledProcessError carrying that command and its stderr,
nothing is encoded, no output blob is written, and the command itself is
a pure stream copy with no re-encode, filter, resample or bitrate
argument. -/
theorem c5_audio_merge_failure (env : Env) (tmpdir : String) (job : Job)
    (hImg : ∀ j, j < job.total_scenes →
      env.blobExists job.images_bucket (imgBlobName job j) = true)
    (hAud : ∀ j, j < job.total_scenes →
      env.blobExists job.audio_bucket (audBlobName job j) = true)
    (hAC : env.audioExit ≠ 0) :
    (assemble env tmpdir job).response
      = HttpResponse.unhandled
          (PyExn.calledProcessError (audioConcatCmd tmpdir) env.audioExit env.audioStderr) ∧
    (assemble env tmpdir job).trace.encodeAttempted = false ∧
    (assemble env tmpdir job).trace.blobWrites = [] ∧
    (∃ pre suf, audioConcatCmd tmpdir = pre ++ ["-c", "copy"] ++ suf) ∧
    (audioConcatCmd tmpdir).any isReencodeArg = false := by
  have hrImg : fetchAttempts (List.range job.total_scenes)
      (fun i => env.blobExists job.images_bucket (imgBlobName job i))
      = (List.range job.total_scenes, none) :=
    fetchAttempts_all _ _ fun i hi => hImg i (List.mem_range.mp hi)
  have hrAud : fetchAttempts (List.range job.total_scenes)
      (fun i => env.blobExists job.audio_bucket (audBlobName job i))
      = (List.range job.total_scenes, none) :=
    fetchAttempts_all _ _ fun i hi => hAud i (List.mem_range.mp hi)
  refine ⟨?_, ?_, ?_, audioConcatCmd_streamCopy tmpdir, audioConcatCmd_noReencode tmpdir⟩ <;>
  · unfold assemble assembleBody
    dsimp only
    rw [hrImg, hrAud]
    dsimp only
    simp [hAC]

/-- C5 witness: the two-scene job with a failing audio concatenation. -/
theorem c5_audio_merge_failure_witness :
    (assemble envAudioFail "/t" jobW).response
      = HttpResponse.unhandled
          (PyExn.calledProcessError (audioConcatCmd "/t")
            envAudioFail.audioExit envAudioFail.audioStderr) :=
  (c5_audio_merge_failure envAudioFail "/t" jobW (by decide) (by decide) (by decide)).1

/-- C6: the audio list names exactly the N narration clips, in index
order, and the concatenation command is a stream copy (it carries
`-c copy` and no re-encode, filter, resample or bitrate argument). -/
theorem c6_audio_list (tmpdir : String) (job : Job) :
    (audioListLines tmpdir job).length = job.total_scenes ∧
    (∀ i, i < job.total_scenes →
      (audioListLines tmpdir job)[i]? = some (ConcatLine.file (audLocalPath tmpdir i))) ∧
    (∃ pre suf, audioConcatCmd tmpdir = pre ++ ["-c", "copy"] ++ suf) ∧
    (audioConcatCmd tmpdir).any isReencodeArg = false := by
  refine ⟨by simp [audioListLines], ?_,
    audioConcatCmd_streamCopy tmpdir, audioConcatCmd_noReencode tmpdir⟩
  intro i hi
  simp only [audioListLines]
  rw [List.getElem?_map, List.getElem?_range hi]
  rfl

/-- C6 witness: entry 0 of the two-scene job. -/
theorem c6_audio_list_witness :
    (audioListLines "/t" jobW)[0]? =
      some (ConcatLine.file (audLocalPath "/t" ((0 : Nat) : Int))) :=
  (c6_audio_list "/t" jobW).2.1 0 (by decide)

/-- C8: on success the run uploads exactly the final output blob, and
the reported size is derived from the storage metadata field of the
environment — changing the local file size changes nothing in the
response — together with the elapsed wall-clock time. -/
theorem c8_publish_metadata (env : Env) (tmpdir : String) (job : Job) (w h : String)
    (hImg : ∀ j, j < job.total_scenes →
      env.blobExists job.images_bucket (imgBlobName job j) = true)
    (hAud : ∀ j, j < job.total_scenes →
      env.blobExists job.audio_bucket (audBlobName job j) = true)
    (hAC : env.audioExit = 0)
    (hres : pySplit 'x' job.resolution = [w, h])
    (hE : env.encodeExit = 0)
    (hU : env.uploadOk = true) :
    (assemble env tmpdir job).trace.blobWrites
      = [(job.output_bucket, "final/" ++ job.output_filename)] ∧
    (assemble env tmpdir job).response
      = HttpResponse.ok "success"
          ("gs://" ++ job.output_bucket ++ "/final/" ++ job.output_filename)
          (roundAt 100 ((env.storedSize : ℚ) / (1024 * 1024)))
          (roundAt 10 (env.t1 - env.t0)) ∧
    (∀ n : Nat, (assemble { env with localSize := n } tmpdir job).response
      = (assemble env tmpdir job).response) := by
  obtain ⟨hresp, _, hwrites⟩ :=
    assemble_success_run env tmpdir job w h hImg hAud hAC hres hE hU
  refine ⟨hwrites, hresp, fun n => ?_⟩
  have h2 := (assemble_success_run { env with localSize := n } tmpdir job w h
    hImg hAud hAC hres hE hU).1
  rw [h2, hresp]

/-- C8 witness: the two-scene job on the success path. -/
theorem c8_publish_metadata_witness :
    (assemble envW "/t" jobW).trace.blobWrites
      = [(jobW.output_bucket, "final/" ++ jobW.output_filename)] ∧
    (assemble envW "/t" jobW).response
      = HttpResponse.ok "success"
          ("gs://" ++ jobW.output_bucket ++ "/final/" ++ jobW.output_filename)
          (roundAt 100 ((envW.storedSize : ℚ) / (1024 * 1024)))
          (roundAt 10 (envW.t1 - envW.t0)) :=
  ⟨(c8_publish_metadata envW "/t" jobW "1920" "1080"
      (by decide) (by decide) (by decide) (by decide) (by decide) (by decide)).1,
   (c8_publish_metadata envW "/t" jobW "1920" "1080"
      (by decide) (by decide) (by decide) (by decide) (by decide) (by decide)).2.1⟩

/-- C9: on the success path the blobs read are exactly the per-index
image and narration blobs under the fixed naming convention, and the
only blob written is the final output blob. -/
theorem c9_naming_convention (env : Env) (tmpdir : String) (job : Job) (w h : String)
    (hImg : ∀ j, j < job.total_scenes →
      env.blobExists job.images_bucket (imgBlobName job j) = true)
    (hAud : ∀ j, j < job.total_scenes →
      env.blobExists job.audio_bucket (audBlobName job j) = true)
    (hAC : env.audioExit = 0)
    (hres : pySplit 'x' job.resolution = [w, h])
    (hE : env.encodeExit = 0)
    (hU : env.uploadOk = true) :
    (assemble env tmpdir job).trace.blobReads
      = ((List.range job.total_scenes).map fun i : Nat =>
          (job.images_bucket, job.images_path ++ "scene_" ++ fmt03 i ++ ".png"))
        ++ ((List.range job.total_scenes).map fun i : Nat =>
          (job.audio_bucket, job.audio_path ++ "narration_" ++ fmt03 i ++ ".mp3")) ∧
    (assemble env tmpdir job).trace.blobWrites
      = [(job.output_bucket, "final/" ++ job.output_filename)] := by
  obtain ⟨_, hreads, hwrites⟩ :=
    assemble_success_run env tmpdir job w h hImg hAud hAC hres hE hU
  refine ⟨?_, hwrites⟩
  rw [hreads]
  simp [imgBlobName, audBlobName]

/-- C9 witness: the two-scene job on the success path. -/
theorem c9_naming_convention_witness :
    (assemble envW "/t" jobW).trace.blobWrites
      = [(jobW.output_bucket, "final/" ++ jobW.output_filename)] :=
  (c9_naming_convention envW "/t" jobW "1920" "1080"
    (by decide) (by decide) (by decide) (by decide) (by decide) (by decide)).2

/-- C10: with zero scenes the concat file still holds one trailing
entry, naming the never-fetched file for index `-1`
(`scene_-01.png`); no blob is read at all, so the trailing entry does
not repeat any fetched image. -/
theorem c10_zero_scenes (env : Env) (tmpdir : String) (job : Job)
    (h0 : job.total_scenes = 0) :
    toEntries (concatLines tmpdir job)
      = [EditEntry.mk (imgLocalPath tmpdir (-1)) none] ∧
    imgLocalPath tmpdir (-1) = tmpdir ++ "/images/scene_-01.png" ∧
    (assemble env tmpdir job).trace.blobReads = [] ∧
    (∀ i : Nat, i < job.total_scenes →
      imgLocalPath tmpdir (i : Int) ≠ imgLocalPath tmpdir (-1)) := by
  refine ⟨?_, ?_, ?_, ?_⟩
  · simp [concatLines, h0, toEntries]
  · have hf : "/" ++ imgLocalRel (-1) = "/images/scene_-01.png" := by decide
    show (tmpdir ++ "/") ++ imgLocalRel (-1) = tmpdir ++ "/images/scene_-01.png"
    rw [String.append_assoc, hf]
  · unfold assemble assembleBody
    dsimp only
    rw [h0]
    dsimp only [List.range_zero, fetchAttempts]
    repeat' split
    all_goals rfl
  · intro i hi
    rw [h0] at hi
    exact absurd hi (Nat.not_lt_zero i)

/-- C10 witness: the zero-scene job. -/
theorem c10_zero_scenes_witness :
    toEntries (concatLines "/t" job0)
      = [EditEntry.mk (imgLocalPath "/t" (-1)) none] :=
  (c10_zero_scenes envW "/t" job0 rfl).1

end VideoAssembler
